import Mathlib

/-!
Verification development for the webhook server of this repository
(an Express application that authenticates GitHub webhook deliveries with
HMAC-SHA256, summarizes the event, and forwards the summary to a Discord
webhook). The definitions below are a shallow embedding of the relevant
TypeScript sources:

- src/presentation/middlewares/github.middleware.ts
  (GithubSha256Middleware: verifyGithubSignature, verifySignature, hexToBytes
  and GitHubController.webHookHandler)
- src/presentation/services/github.service.ts
  (GitHubService.onStar, GitHubService.onIssue and DiscordService.notify)
- app.ts (the request pipeline: express.json, the signature middleware,
  then the controller)

JavaScript runtime behaviour that the code relies on (property access on
undefined throwing TypeError, template-literal string conversion, parseInt
with radix 16, Uint8Array element coercion, JSON.parse / JSON.stringify,
the WebCrypto HMAC operations) is embedded explicitly; each such model is
documented at its definition.
-/

namespace Webhooks

/-- Errors a JavaScript computation in the embedded fragment can throw:
TypeError (property access on undefined or null), DataError (WebCrypto
importKey rejecting a zero-length HMAC key). -/
inductive JsError where
  | typeError
  | dataError
deriving Repr, DecidableEq

/-- JavaScript values as far as the webhook payload handling needs them:
undefined, null, booleans, integer numbers, strings, arrays and plain
objects (fields kept in insertion order). -/
inductive JsValue where
  | undef
  | null
  | bool (b : Bool)
  | num (n : Int)
  | str (s : String)
  | arr (elems : List JsValue)
  | obj (fields : List (String × JsValue))
deriving Repr

/-- JavaScript strict equality `v === lit` against a string literal: true
exactly when `v` is a string with that content. -/
def JsValue.strictEqStr (v : JsValue) (lit : String) : Bool :=
  match v with
  | .str s => s == lit
  | _ => false

/-- Lookup of a property name in an object field list. Later entries shadow
earlier ones, matching JavaScript property assignment order. -/
def lookupField : List (String × JsValue) → String → Option JsValue
  | [], _ => none
  | (k, v) :: rest, name =>
    match lookupField rest name with
    | some r => some r
    | none => if k = name then some v else none

/-- JavaScript property access `v.name`. Access on undefined or null throws a
TypeError; access on an object yields the field value or undefined; access on
any other primitive or on an array yields undefined (none of the properties
the services read exist on those values). -/
def JsValue.getProp : JsValue → String → Except JsError JsValue
  | .undef, _ => .error .typeError
  | .null, _ => .error .typeError
  | .obj fields, name => .ok ((lookupField fields name).getD .undef)
  | _, _ => .ok .undef

mutual

/-- JavaScript string conversion as performed by a template literal
placeholder: undefined prints as "undefined", null as "null", booleans and
integers in their decimal form, strings as themselves, arrays as their
elements joined by commas (with undefined and null elements printing empty,
as Array.prototype.toString does), and plain objects as
"[object Object]". -/
def JsValue.toTemplate : JsValue → String
  | .undef => "undefined"
  | .null => "null"
  | .bool true => "true"
  | .bool false => "false"
  | .num n => toString n
  | .str s => s
  | .arr es => String.intercalate "," (toTemplateElems es)
  | .obj _ => "[object Object]"

/-- String conversion of array elements for `JsValue.toTemplate`: inside
Array.prototype.toString, undefined and null elements become the empty
string. -/
def toTemplateElems : List JsValue → List String
  | [] => []
  | .undef :: rest => "" :: toTemplateElems rest
  | .null :: rest => "" :: toTemplateElems rest
  | v :: rest => v.toTemplate :: toTemplateElems rest

end

namespace GitHubService

/-- Embedding of `GitHubService.onStar` (github.service.ts). The TypeScript
body destructures `action`, `sender` and `repository` from the payload and
returns the template literal
"User S-dollar-sender.login S-dollar-action star on
S-dollar-repository.full_name"; the property reads `sender.login` and
`repository.full_name` throw a TypeError when the intermediate value is
undefined or null, which the service does not catch. -/
def onStar (payload : JsValue) : Except JsError String := do
  let action ← payload.getProp "action"
  let sender ← payload.getProp "sender"
  let repository ← payload.getProp "repository"
  let login ← sender.getProp "login"
  let fullName ← repository.getProp "full_name"
  pure ("User " ++ login.toTemplate ++ " " ++ action.toTemplate
        ++ " star on " ++ fullName.toTemplate)

/-- Embedding of `GitHubService.onIssue` (github.service.ts). The body
destructures `action` and `issue`, branches on the strict string comparisons
with "opened", "closed" and "reopened", and otherwise reports the unhandled
action. The reads `issue.title`, `issue.user` and `issue.user.login` throw a
TypeError when the intermediate value is undefined or null. -/
def onIssue (payload : JsValue) : Except JsError String := do
  let action ← payload.getProp "action"
  let issue ← payload.getProp "issue"
  if action.strictEqStr "opened" then
    let title ← issue.getProp "title"
    pure ("An issue was opened with this title " ++ title.toTemplate)
  else if action.strictEqStr "closed" then
    let user ← issue.getProp "user"
    let login ← user.getProp "login"
    pure ("An issue was closed by " ++ login.toTemplate)
  else if action.strictEqStr "reopened" then
    let user ← issue.getProp "user"
    let login ← user.getProp "login"
    pure ("An issue was reopened by " ++ login.toTemplate)
  else
    pure ("Unhandled action for the issue event " ++ action.toTemplate)

end GitHubService

/-- Result of the outbound `fetch` call in `DiscordService.notify`: either the
promise resolved with a response whose `ok` flag is given (true for a 2xx
status), or it rejected with a network-level error. -/
inductive FetchResult where
  | response (ok : Bool)
  | networkError
deriving Repr, DecidableEq

/-- Outcome of an awaited JavaScript promise: resolved with a value, or
rejected. -/
inductive PromiseOutcome (α : Type) where
  | resolved (value : α)
  | rejected (error : JsError)
deriving Repr, DecidableEq

namespace DiscordService

/-- Embedding of `DiscordService.notify` (discord.service.ts). The method
awaits `fetch` inside a try/catch: a response with `ok` false logs and
returns false, a 2xx response returns true, and any thrown network error is
caught and also returns false. In particular the returned promise always
resolves; it never rejects. -/
def notify (fetchRes : FetchResult) : PromiseOutcome Bool :=
  match fetchRes with
  | .response ok => .resolved ok
  | .networkError => .resolved false

end DiscordService

/-- The notification outcome in the vocabulary of the specification
(section 4.3): `failed` exactly when the outbound call hit a network error or
a non-2xx response, `delivered` otherwise. Modelled from the spec: this
predicate states which deliveries count as failed; it is the reference point
the response-code claims compare the implementation against. -/
def specNotifyFailed (fetchRes : FetchResult) : Bool :=
  match fetchRes with
  | .response ok => !ok
  | .networkError => true

/-- An HTTP response produced by the controller or middleware: a status code
and a body (a string body for `res.send`, a JSON value for `res.json`). -/
structure HttpResponse where
  status : Nat
  body : JsValue
deriving Repr

namespace GitHubController

/-- Embedding of the switch statement of `GitHubController.webHookHandler`:
"star" and "issues" go to their service methods, every other event type
produces the template literal "Unknown event S-dollar-githubEvent". -/
def dispatchEvent (githubEvent : String) (payload : JsValue) :
    Except JsError String :=
  match githubEvent with
  | "star" => GitHubService.onStar payload
  | "issues" => GitHubService.onIssue payload
  | _ => .ok ("Unknown event " ++ githubEvent)

/-- Embedding of the event-type extraction in `webHookHandler`:
`req.header("x-github-event") ?? "unknown"`. -/
def extractGithubEvent (eventHeader : Option String) : String :=
  eventHeader.getD "unknown"

/-- Embedding of `GitHubController.webHookHandler` after the middleware.
The handler dispatches on the event type (a synchronous throw from a
summarizer escapes the handler, to be caught by the Express error handler),
then calls `discordService.notify(message)` and attaches
`.then` answering 202 "Accepted" and `.catch` answering 500. The `.then`
branch ignores the boolean the promise resolved with. -/
def webHookHandler (eventHeader : Option String) (payload : JsValue)
    (fetchRes : FetchResult) : Except JsError HttpResponse :=
  let githubEvent := extractGithubEvent eventHeader
  match dispatchEvent githubEvent payload with
  | .error e => .error e
  | .ok _message =>
    .ok (match DiscordService.notify fetchRes with
         | .resolved _ => ⟨202, .str "Accepted"⟩
         | .rejected _ => ⟨500, .obj [("error", .str "internal server error")]⟩)

end GitHubController

/-!
Model of the cryptographic primitive the middleware delegates to:
`crypto.subtle` with algorithm HMAC over SHA-256 (FIPS 180-4 and RFC 2104,
which is what the WebCrypto implementation computes). Machine words are
natural numbers kept below 2 to the 32 by explicit reduction `w32`; byte
strings are lists of natural numbers below 256.
-/

/-- Reduction of a natural number to a 32-bit word value. -/
def w32 (n : Nat) : Nat := n % 4294967296

/-- Right rotation of a 32-bit word by `k` positions. -/
def rotr32 (k x : Nat) : Nat := w32 ((x >>> k) ||| (x <<< (32 - k)))

/-- SHA-256 big sigma 0. -/
def bSig0 (x : Nat) : Nat := (rotr32 2 x) ^^^ (rotr32 13 x) ^^^ (rotr32 22 x)

/-- SHA-256 big sigma 1. -/
def bSig1 (x : Nat) : Nat := (rotr32 6 x) ^^^ (rotr32 11 x) ^^^ (rotr32 25 x)

/-- SHA-256 small sigma 0. -/
def sSig0 (x : Nat) : Nat := (rotr32 7 x) ^^^ (rotr32 18 x) ^^^ (x >>> 3)

/-- SHA-256 small sigma 1. -/
def sSig1 (x : Nat) : Nat := (rotr32 17 x) ^^^ (rotr32 19 x) ^^^ (x >>> 10)

/-- SHA-256 choice function. -/
def chF (x y z : Nat) : Nat := (x &&& y) ^^^ ((x ^^^ 4294967295) &&& z)

/-- SHA-256 majority function. -/
def majF (x y z : Nat) : Nat := (x &&& y) ^^^ (x &&& z) ^^^ (y &&& z)

/-- The 64 SHA-256 round constants (FIPS 180-4, in decimal). -/
def shaK : List Nat :=
  [1116352408, 1899447441, 3049323471, 3921009573,
   961987163, 1508970993, 2453635748, 2870763221,
   3624381080, 310598401, 607225278, 1426881987,
   1925078388, 2162078206, 2614888103, 3248222580,
   3835390401, 4022224774, 264347078, 604807628,
   770255983, 1249150122, 1555081692, 1996064986,
   2554220882, 2821834349, 2952996808, 3210313671,
   3336571891, 3584528711, 113926993, 338241895,
   666307205, 773529912, 1294757372, 1396182291,
   1695183700, 1986661051, 2177026350, 2456956037,
   2730485921, 2820302411, 3259730800, 3345764771,
   3516065817, 3600352804, 4094571909, 275423344,
   430227734, 506948616, 659060556, 883997877,
   958139571, 1322822218, 1537002063, 1747873779,
   1955562222, 2024104815, 2227730452, 2361852424,
   2428436474, 2756734187, 3204031479, 3329325298]

/-- The eight working words of the SHA-256 state. -/
structure Hash8 where
  (a b c d e f g h : Nat)
deriving Repr

/-- The SHA-256 initial hash state (FIPS 180-4, in decimal). -/
def initH : Hash8 :=
  ⟨1779033703, 3144134277, 1013904242, 2773480762,
   1359893119, 2600822924, 528734635, 1541459225⟩

/-- A natural number as 8 big-endian bytes (the SHA-256 length field). -/
def be64 (n : Nat) : List Nat :=
  [(n >>> 56) % 256, (n >>> 48) % 256, (n >>> 40) % 256, (n >>> 32) % 256,
   (n >>> 24) % 256, (n >>> 16) % 256, (n >>> 8) % 256, n % 256]

/-- SHA-256 message padding: append the byte 0x80, then zero bytes up to 56
modulo 64, then the bit length as 8 big-endian bytes. -/
def padMessage (msg : List Nat) : List Nat :=
  let len := msg.length
  let padZeros := (56 + 64 - ((len + 1) % 64)) % 64
  msg ++ 128 :: (List.replicate padZeros 0 ++ be64 (8 * len))

/-- Fuel-driven worker for `chunks64`; every step consumes at least one list
element, so fuel equal to the list length always suffices. -/
def chunks64Aux : Nat → List Nat → List (List Nat)
  | 0, _ => []
  | _, [] => []
  | fuel + 1, l => (l.take 64) :: chunks64Aux fuel (l.drop 64)

/-- Split a byte list into chunks of 64 bytes (the padded message has a
length that is a multiple of 64). -/
def chunks64 (l : List Nat) : List (List Nat) := chunks64Aux l.length l

/-- Group bytes into 32-bit big-endian words. -/
def wordsOf : List Nat → List Nat
  | b0 :: b1 :: b2 :: b3 :: rest =>
    ((b0 <<< 24) + (b1 <<< 16) + (b2 <<< 8) + b3) :: wordsOf rest
  | _ => []

/-- Extension step for the SHA-256 message schedule: the accumulator holds
the words produced so far, most recent first; `n` more words remain to be
appended. -/
def scheduleAux : List Nat → Nat → List Nat
  | rev, 0 => rev.reverse
  | rev, n + 1 =>
    scheduleAux
      (w32 (sSig1 (rev.getD 1 0) + rev.getD 6 0
            + sSig0 (rev.getD 14 0) + rev.getD 15 0) :: rev) n

/-- The 64-word SHA-256 message schedule from the 16 words of a block. -/
def schedule (first16 : List Nat) : List Nat := scheduleAux first16.reverse 48

/-- One SHA-256 compression round; `kw` is the round constant already added
to the schedule word. -/
def roundStep (st : Hash8) (kw : Nat) : Hash8 :=
  let t1 := w32 (st.h + bSig1 st.e + chF st.e st.f st.g + kw)
  let t2 := w32 (bSig0 st.a + majF st.a st.b st.c)
  ⟨w32 (t1 + t2), st.a, st.b, st.c, w32 (st.d + t1), st.e, st.f, st.g⟩

/-- SHA-256 compression of one 64-byte block into the running state. -/
def compressBlock (st : Hash8) (block : List Nat) : Hash8 :=
  let ws := schedule (wordsOf block)
  let kws := List.zipWith (fun k w => w32 (k + w)) shaK ws
  let fin := kws.foldl roundStep st
  ⟨w32 (st.a + fin.a), w32 (st.b + fin.b), w32 (st.c + fin.c),
   w32 (st.d + fin.d), w32 (st.e + fin.e), w32 (st.f + fin.f),
   w32 (st.g + fin.g), w32 (st.h + fin.h)⟩

/-- A 32-bit word as 4 big-endian bytes. -/
def wordBytes (x : Nat) : List Nat :=
  [(x >>> 24) % 256, (x >>> 16) % 256, (x >>> 8) % 256, x % 256]

/-- The 32 digest bytes of a final SHA-256 state. -/
def Hash8.digest (st : Hash8) : List Nat :=
  wordBytes st.a ++ wordBytes st.b ++ wordBytes st.c ++ wordBytes st.d ++
  wordBytes st.e ++ wordBytes st.f ++ wordBytes st.g ++ wordBytes st.h

/-- SHA-256 of a byte string. -/
def sha256 (msg : List Nat) : List Nat :=
  ((chunks64 (padMessage msg)).foldl compressBlock initH).digest

/-- HMAC-SHA256 (RFC 2104) of a message under a key, as computed by the
WebCrypto HMAC sign and verify operations: keys longer than the 64-byte
block are hashed first, the key is zero-padded to 64 bytes, and the inner
and outer pads are 0x36 and 0x5c. -/
def hmacSha256 (key msg : List Nat) : List Nat :=
  let k0 := if 64 < key.length then sha256 key else key
  let kp := k0 ++ List.replicate (64 - k0.length) 0
  let inner := sha256 ((kp.map fun b => b ^^^ 0x36) ++ msg)
  sha256 ((kp.map fun b => b ^^^ 0x5c) ++ inner)

/-- UTF-8 encoding of one character (what TextEncoder emits per code
point; Lean characters are Unicode scalar values, so the four standard
ranges cover every case). -/
def utf8Bytes (c : Char) : List Nat :=
  let n := c.toNat
  if n < 0x80 then [n]
  else if n < 0x800 then
    [0xc0 ||| (n >>> 6), 0x80 ||| (n &&& 0x3f)]
  else if n < 0x10000 then
    [0xe0 ||| (n >>> 12), 0x80 ||| ((n >>> 6) &&& 0x3f), 0x80 ||| (n &&& 0x3f)]
  else
    [0xf0 ||| (n >>> 18), 0x80 ||| ((n >>> 12) &&& 0x3f),
     0x80 ||| ((n >>> 6) &&& 0x3f), 0x80 ||| (n &&& 0x3f)]

/-- UTF-8 encoding of a string, as `TextEncoder.encode` produces it. -/
def encodeUtf8 (s : String) : List Nat := (s.data.map utf8Bytes).flatten

/-- The numeric value of a hexadecimal digit character, case insensitive;
none for every other character. -/
def hexDigitVal (c : Char) : Option Nat :=
  if '0' ≤ c ∧ c ≤ '9' then some (c.toNat - 48)
  else if 'a' ≤ c ∧ c ≤ 'f' then some (c.toNat - 87)
  else if 'A' ≤ c ∧ c ≤ 'F' then some (c.toNat - 55)
  else none

/-- The lowercase hexadecimal digit for a value below 16 (out-of-range
arguments fall back to the list default and never occur in use). -/
def hexDigitChar (n : Nat) : Char := "0123456789abcdef".data.getD n '0'

/-- Lowercase hexadecimal encoding of a byte string, two digits per byte:
the form in which the sender transmits the HMAC digest. -/
def bytesToHex : List Nat → List Char
  | [] => []
  | b :: rest => hexDigitChar (b / 16) :: hexDigitChar (b % 16) :: bytesToHex rest

/-!
Model of `JSON.parse` and `JSON.stringify` as used by `express.json()` and
by the middleware. The fragment covers null, booleans, strings, arrays,
objects and integer numbers; numbers with a fraction or exponent are outside
the fragment (no claim involves them, and floating point is outside the
embedding). Stringify emits the canonical form with no whitespace, as the
ECMAScript algorithm does with no space argument.
-/

/-- The JSON whitespace characters. -/
def jsonWs (c : Char) : Bool := c == ' ' || c == '\t' || c == '\n' || c == '\r'

/-- Escape one character for a JSON string literal, as JSON.stringify
does: the quote and backslash get a backslash escape, the named control
characters get their short escapes, other control characters a \u00XX
escape, and everything else stands for itself. -/
def jsonQuoteChar (c : Char) : String :=
  if c = '"' then "\\\""
  else if c = '\\' then "\\\\"
  else if c = '\x08' then "\\b"
  else if c = '\x09' then "\\t"
  else if c = '\x0a' then "\\n"
  else if c = '\x0c' then "\\f"
  else if c = '\x0d' then "\\r"
  else if c.toNat < 32 then
    "\\u00" ++ String.mk [hexDigitChar (c.toNat / 16), hexDigitChar (c.toNat % 16)]
  else String.singleton c

/-- A string as a JSON string literal. -/
def jsonQuote (s : String) : String :=
  "\"" ++ String.join (s.data.map jsonQuoteChar) ++ "\""

mutual

/-- JSON.stringify of a value: none when the value is undefined (the
ECMAScript algorithm returns undefined for it; inside arrays it prints as
null and inside objects the field is omitted, which the two workers below
implement). -/
def jsonStringifyVal : JsValue → Option String
  | .undef => none
  | .null => some "null"
  | .bool true => some "true"
  | .bool false => some "false"
  | .num n => some (toString n)
  | .str s => some (jsonQuote s)
  | .arr es => some ("[" ++ String.intercalate "," (jsonStringifyElems es) ++ "]")
  | .obj fs =>
    some ("\x7b" ++ String.intercalate "," (jsonStringifyFields fs) ++ "\x7d")

/-- Array elements under JSON.stringify; an undefined element prints as
null. -/
def jsonStringifyElems : List JsValue → List String
  | [] => []
  | v :: rest => ((jsonStringifyVal v).getD "null") :: jsonStringifyElems rest

/-- Object fields under JSON.stringify, in insertion order; a field whose
value is undefined is omitted. -/
def jsonStringifyFields : List (String × JsValue) → List String
  | [] => []
  | (k, v) :: rest =>
    match jsonStringifyVal v with
    | none => jsonStringifyFields rest
    | some sv => (jsonQuote k ++ ":" ++ sv) :: jsonStringifyFields rest

end

/-- Property creation while JSON.parse builds an object: an existing key is
overwritten in place (later duplicate keys win), a new key is appended. -/
def insertFieldJs : List (String × JsValue) → String → JsValue → List (String × JsValue)
  | [], k, v => [(k, v)]
  | (k0, v0) :: rest, k, v =>
    if k0 = k then (k0, v) :: rest else (k0, v0) :: insertFieldJs rest k v

/-- The body of a JSON string literal after the opening quote, with the
accumulated characters reversed in `acc`. Unicode escapes are decoded with
`Char.ofNat`; surrogate pair escapes are outside the fragment. -/
def parseStringAux : List Char → List Char → Option (String × List Char)
  | '"' :: rest, acc => some (String.mk acc.reverse, rest)
  | '\\' :: '"' :: r, acc => parseStringAux r ('"' :: acc)
  | '\\' :: '\\' :: r, acc => parseStringAux r ('\\' :: acc)
  | '\\' :: '/' :: r, acc => parseStringAux r ('/' :: acc)
  | '\\' :: 'b' :: r, acc => parseStringAux r ('\x08' :: acc)
  | '\\' :: 'f' :: r, acc => parseStringAux r ('\x0c' :: acc)
  | '\\' :: 'n' :: r, acc => parseStringAux r ('\x0a' :: acc)
  | '\\' :: 'r' :: r, acc => parseStringAux r ('\x0d' :: acc)
  | '\\' :: 't' :: r, acc => parseStringAux r ('\x09' :: acc)
  | '\\' :: 'u' :: h1 :: h2 :: h3 :: h4 :: r, acc =>
    match hexDigitVal h1, hexDigitVal h2, hexDigitVal h3, hexDigitVal h4 with
    | some a, some b, some c, some d =>
      parseStringAux r (Char.ofNat (4096 * a + 256 * b + 16 * c + d) :: acc)
    | _, _, _, _ => none
  | '\\' :: _, _ => none
  | c :: rest, acc => if c.toNat < 32 then none else parseStringAux rest (c :: acc)
  | [], _ => none

/-- A decimal digit character. -/
def isDigitCh (c : Char) : Bool := '0' ≤ c && c ≤ '9'

/-- The value of a nonempty list of decimal digits. -/
def digitsVal (ds : List Char) : Nat :=
  ds.foldl (fun acc c => 10 * acc + (c.toNat - 48)) 0

/-- A JSON natural number token: a single 0 or a nonzero leading digit
followed by digits; a fraction or exponent marker after it is outside the
modelled fragment and rejected. -/
def parseNatTok : List Char → Option (Nat × List Char)
  | '0' :: rest =>
    match rest with
    | c :: _ =>
      if isDigitCh c || c == '.' || c == 'e' || c == 'E' then none
      else some (0, rest)
    | [] => some (0, [])
  | c :: rest =>
    if isDigitCh c then
      let ds := rest.takeWhile isDigitCh
      let r := rest.dropWhile isDigitCh
      match r with
      | c2 :: _ =>
        if c2 == '.' || c2 == 'e' || c2 == 'E' then none
        else some (digitsVal (c :: ds), r)
      | [] => some (digitsVal (c :: ds), [])
    else none
  | [] => none

/-- A JSON number token restricted to integers, with optional minus sign. -/
def parseNumberTok : List Char → Option (JsValue × List Char)
  | '-' :: rest =>
    match parseNatTok rest with
    | some (n, r) => some (.num (-(n : Int)), r)
    | none => none
  | cs =>
    match parseNatTok cs with
    | some (n, r) => some (.num (n : Int), r)
    | none => none

mutual

/-- Fuel-driven JSON value grammar (JSON.parse on the modelled fragment).
The fuel strictly decreases on every recursive call; `jsonParse` supplies
enough for any input of the given length. -/
def parseValueF : Nat → List Char → Option (JsValue × List Char)
  | 0, _ => none
  | fuel + 1, cs =>
    match cs.dropWhile jsonWs with
    | 'n' :: 'u' :: 'l' :: 'l' :: rest => some (.null, rest)
    | 't' :: 'r' :: 'u' :: 'e' :: rest => some (.bool true, rest)
    | 'f' :: 'a' :: 'l' :: 's' :: 'e' :: rest => some (.bool false, rest)
    | '"' :: rest =>
      match parseStringAux rest [] with
      | some (s, r) => some (.str s, r)
      | none => none
    | '[' :: rest =>
      match rest.dropWhile jsonWs with
      | ']' :: r2 => some (.arr [], r2)
      | _ =>
        match parseElemsF fuel rest [] with
        | some (es, r2) => some (.arr es, r2)
        | none => none
    | '\x7b' :: rest =>
      match rest.dropWhile jsonWs with
      | '\x7d' :: r2 => some (.obj [], r2)
      | _ =>
        match parseFieldsF fuel rest [] with
        | some (fs, r2) => some (.obj fs, r2)
        | none => none
    | rest => parseNumberTok rest

/-- The comma-separated elements of a nonempty JSON array, up to and
including the closing bracket. -/
def parseElemsF : Nat → List Char → List JsValue → Option (List JsValue × List Char)
  | 0, _, _ => none
  | fuel + 1, cs, acc =>
    match parseValueF fuel cs with
    | none => none
    | some (v, r) =>
      match r.dropWhile jsonWs with
      | ',' :: r2 => parseElemsF fuel r2 (acc ++ [v])
      | ']' :: r2 => some (acc ++ [v], r2)
      | _ => none

/-- The comma-separated fields of a nonempty JSON object, up to and
including the closing brace. -/
def parseFieldsF : Nat → List Char → List (String × JsValue) →
    Option (List (String × JsValue) × List Char)
  | 0, _, _ => none
  | fuel + 1, cs, acc =>
    match cs.dropWhile jsonWs with
    | '"' :: rest =>
      match parseStringAux rest [] with
      | none => none
      | some (k, r) =>
        match r.dropWhile jsonWs with
        | ':' :: r2 =>
          match parseValueF fuel r2 with
          | none => none
          | some (v, r3) =>
            match r3.dropWhile jsonWs with
            | ',' :: r4 => parseFieldsF fuel r4 (insertFieldJs acc k v)
            | '\x7d' :: r4 => some (insertFieldJs acc k v, r4)
            | _ => none
        | _ => none
    | _ => none

end

/-- JSON.parse on the modelled fragment: none models a thrown SyntaxError.
The fuel bound 2 * length + 2 dominates the number of grammar steps, each of
which either consumes input or descends. -/
def jsonParse (s : String) : Option JsValue :=
  match parseValueF (2 * s.length + 2) s.data with
  | some (v, rest) => if rest.dropWhile jsonWs = [] then some v else none
  | none => none

/-- Worker for `jsSplit` carrying the current piece reversed. -/
def jsSplitAux (sep : Char) : List Char → List Char → List (List Char)
  | [], acc => [acc.reverse]
  | c :: rest, acc =>
    if c = sep then acc.reverse :: jsSplitAux sep rest []
    else jsSplitAux sep rest (c :: acc)

/-- JavaScript `String.prototype.split` with a one-character separator: the
pieces between occurrences of the separator, never an empty list. -/
def jsSplit (sep : Char) (s : List Char) : List (List Char) := jsSplitAux sep s []

/-- The whitespace characters `parseInt` skips before the number (the
common ASCII subset; the further Unicode space characters cannot occur in
the inputs of this development). -/
def parseIntWs (c : Char) : Bool :=
  c == ' ' || c == '\t' || c == '\n' || c == '\r' || c == '\x0b' || c == '\x0c'

/-- JavaScript `parseInt(string, 16)`: skip leading whitespace, take an
optional sign, strip an optional 0x or 0X, then read the longest prefix of
hexadecimal digits, ignoring everything after it; none models NaN (no
digits). -/
def parseIntHex (cs : List Char) : Option Int :=
  let t := cs.dropWhile parseIntWs
  let signedTail : Int × List Char :=
    match t with
    | '-' :: r => (-1, r)
    | '+' :: r => (1, r)
    | _ => (1, t)
  let t2 :=
    match signedTail.2 with
    | '0' :: 'x' :: r => r
    | '0' :: 'X' :: r => r
    | r => r
  let digits := t2.takeWhile (fun c => (hexDigitVal c).isSome)
  if digits = [] then none
  else
    some (signedTail.1 *
      ((digits.foldl (fun acc c => 16 * acc + ((hexDigitVal c).getD 0)) 0 : Nat) : Int))

/-- Storing a `parseInt` result into a `Uint8Array` element: NaN becomes 0,
any other value is coerced with ToUint8, the mathematical residue modulo
256. -/
def toUint8 : Option Int → Nat
  | none => 0
  | some i => (i % 256).toNat

/-- The loop body of `hexToBytes`: each two-character slice is parsed with
`parseInt(c, 16)` and stored. For an odd input length the final slice is a
single character; it is parsed, but its store targets index length / 2
(truncated), one past the end of the array, and an out-of-bounds typed
array write is silently ignored — so the final character contributes no
byte. -/
def decodePairs : List Char → List Nat
  | c1 :: c2 :: rest => toUint8 (parseIntHex [c1, c2]) :: decodePairs rest
  | [_] => []
  | [] => []

namespace GithubSha256Middleware

/-- Embedding of `GithubSha256Middleware.hexToBytes`. The argument is
`parts[1]` of the header split and is undefined (none) when the header had
no separator: reading `.length` of undefined throws a TypeError. With a
string argument, `new Uint8Array(hex.length / 2)` truncates a fractional
length (the ToIndex conversion applies ToIntegerOrInfinity, which rounds
toward zero, and throws only for negative or huge values), so an odd
length yields an array of length / 2 (truncated) bytes; the loop then
decodes the character pairs, the final out-of-bounds single-character
store of an odd input being silently ignored. -/
def hexToBytes : Option (List Char) → Except JsError (List Nat)
  | none => .error .typeError
  | some hex => .ok (decodePairs hex)

/-- Embedding of the body of `GithubSha256Middleware.verifySignature` before
its try/catch: split the header on the separator, import the secret as an
HMAC key (the WebCrypto import throws a DataError for a zero-length key),
decode the digest with `hexToBytes`, and let `crypto.subtle.verify` compare
the decoded bytes against HMAC-SHA256 of the payload, a fixed-time byte
string equality. -/
def verifySignatureSteps (secret header payload : String) :
    Except JsError Bool :=
  let parts := jsSplit '=' header.data
  let sigHex := parts[1]?
  let keyBytes := encodeUtf8 secret
  if keyBytes.length = 0 then .error .dataError
  else
    match hexToBytes sigHex with
    | .error e => .error e
    | .ok sigBytes =>
      let computed := hmacSha256 keyBytes (encodeUtf8 payload)
      .ok (sigBytes == computed)

/-- Embedding of `GithubSha256Middleware.verifySignature`: the try/catch
converts every thrown error into a negative result. -/
def verifySignature (secret header payload : String) : Bool :=
  match verifySignatureSteps secret header payload with
  | .ok b => b
  | .error _ => false

/-- Embedding of the header read in `verifyGithubSignature`: the template
literal around `req.headers["x-hub-signature-256"]` turns a missing header
(undefined) into the string "undefined". -/
def sigHeaderString : Option String → String
  | some s => s
  | none => "undefined"

/-- The string whose bytes `verifyGithubSignature` MACs:
`JSON.stringify(req.body)`, a re-serialization of the parsed body (for the
body value undefined, where stringify returns undefined, the later
TextEncoder conversion yields no bytes, modelled as the empty string; a
parsed body is never undefined). -/
def macInput (body : JsValue) : String := (jsonStringifyVal body).getD ""

/-- Embedding of `GithubSha256Middleware.verifyGithubSignature` up to its
branch: the boolean the middleware branches on. -/
def verifyGithubSignature (secret : String) (sigHeader : Option String)
    (body : JsValue) : Bool :=
  verifySignature secret (sigHeaderString sigHeader) (macInput body)

end GithubSha256Middleware

/-- What one request produces, as observed from outside: the HTTP status,
the response body, and whether the event dispatcher (the controller event
switch) ran. -/
structure RequestOutcome where
  status : Nat
  responseBody : JsValue
  dispatcherCalled : Bool
deriving Repr

/-- The request pipeline of app.ts: `express.json` has parsed the body, the
signature middleware runs first and answers 401 with body
containing the error field "Invalid signature" on a negative verification
without calling `next`, and otherwise the controller runs; a synchronous
throw out of the controller lands in the Express default error handler,
which answers 500 (its html body is abbreviated here to a marker
string). -/
def handleWebhookRequest (secret : String) (sigHeader eventHeader : Option String)
    (body : JsValue) (fetchRes : FetchResult) : RequestOutcome :=
  if GithubSha256Middleware.verifyGithubSignature secret sigHeader body then
    match GitHubController.webHookHandler eventHeader body fetchRes with
    | .ok resp => ⟨resp.status, resp.body, true⟩
    | .error _ => ⟨500, .str "Internal Server Error", true⟩
  else
    ⟨401, .obj [("error", .str "Invalid signature")], false⟩

/-!
Theorems. Each claim of the specification audit has exactly one theorem
below, with shared helper lemmas before them.
-/

/-- Property access on an object value never throws and yields the looked-up
field or undefined. -/
theorem getProp_obj (fields : List (String × JsValue)) (k : String) :
    JsValue.getProp (.obj fields) k = .ok ((lookupField fields k).getD .undef) := rfl

/-- Claim C9: the star summarizer turns the scenario payload with action
"created", sender login "alice" and repository full name "org/repo" into
exactly the message "User alice created star on org/repo". -/
theorem star_scenario_message :
    GitHubService.onStar
      (.obj [("action", .str "created"),
             ("sender", .obj [("login", .str "alice")]),
             ("repository", .obj [("full_name", .str "org/repo")])]) =
      .ok "User alice created star on org/repo" := by
  rfl

/-- Claim C10: with no x-github-event header the handler substitutes the
event type "unknown", the dispatch produces the message
"Unknown event unknown", and the handler proceeds normally (no error; the
response is the 202 acknowledgement, since the notifier promise always
resolves). -/
theorem missing_event_header_unknown (payload : JsValue) (f : FetchResult) :
    GitHubController.extractGithubEvent none = "unknown" ∧
    GitHubController.dispatchEvent (GitHubController.extractGithubEvent none)
      payload = .ok "Unknown event unknown" ∧
    GitHubController.webHookHandler none payload f = .ok ⟨202, .str "Accepted"⟩ := by
  refine ⟨rfl, rfl, ?_⟩
  cases f with
  | response ok => cases ok <;> rfl
  | networkError => rfl

/-- Claim C8: dispatch on an event type outside the known set sends back
the message "Unknown event " followed by that exact event-type string (so
the type string occurs verbatim, here as a suffix), and returns normally
rather than throwing. -/
theorem unknown_event_message_contains_type (evt : String) (payload : JsValue)
    (hstar : evt ≠ "star") (hissues : evt ≠ "issues") :
    GitHubController.dispatchEvent evt payload = .ok ("Unknown event " ++ evt) ∧
    evt.data <:+ ("Unknown event " ++ evt).data := by
  constructor
  · unfold GitHubController.dispatchEvent
    split
    · exact absurd rfl hstar
    · exact absurd rfl hissues
    · rfl
  · exact ⟨"Unknown event ".data, (String.data_append _ _).symm⟩

/-- Witness for claim C8 at the concrete unrecognized event type "push". -/
theorem unknown_event_message_witness :
    GitHubController.dispatchEvent "push" (.obj []) = .ok ("Unknown event " ++ "push") ∧
    "push".data <:+ ("Unknown event " ++ "push").data :=
  unknown_event_message_contains_type "push" (.obj []) (by decide) (by decide)

/-- Claim C6: whenever the middleware verification of a request is negative,
the pipeline answers 401 with the body containing the error text
"Invalid signature", and the event dispatcher is never invoked. -/
theorem invalid_signature_rejected_without_dispatch (secret : String)
    (sigHeader eventHeader : Option String) (body : JsValue) (f : FetchResult)
    (hv : GithubSha256Middleware.verifyGithubSignature secret sigHeader body = false) :
    handleWebhookRequest secret sigHeader eventHeader body f =
      ⟨401, .obj [("error", .str "Invalid signature")], false⟩ := by
  unfold handleWebhookRequest
  rw [hv]
  rfl

/-- Witness for claim C6: a request with no signature header (so the
middleware sees the string "undefined") is rejected with 401 and the
dispatcher does not run. -/
theorem invalid_signature_rejected_witness :
    GithubSha256Middleware.verifyGithubSignature "s" none (.obj []) = false ∧
    handleWebhookRequest "s" none none (.obj []) (.response true) =
      ⟨401, .obj [("error", .str "Invalid signature")], false⟩ := by
  refine ⟨rfl, ?_⟩
  exact invalid_signature_rejected_without_dispatch "s" none none (.obj [])
    (.response true) rfl

/-- Bind on a succeeding Except computation continues with the value. -/
theorem exBind_ok {α β : Type} (a : α) (f : α → Except JsError β) :
    (Except.ok a >>= f) = f a := rfl

/-- Bind on a failed Except computation propagates the error. -/
theorem exBind_err {α β : Type} (e : JsError) (f : α → Except JsError β) :
    ((Except.error e : Except JsError α) >>= f) = Except.error e := rfl

/-- Counterexample to claim C7 as stated: on the star payload whose optional
sender object is absent, the summarizer does fail — the read of
`sender.login` throws a TypeError instead of producing a placeholder. -/
theorem missing_sender_star_throws :
    GitHubService.onStar (.obj [("action", .str "created")]) =
      .error .typeError := rfl

/-- Claim C7 as amended: when an intermediate object the summarizer
dereferences is absent — sender for the star event, likewise repository
with sender present, issue for an opened issue — the summarizer throws a
TypeError rather than producing a placeholder, and the thrown error escapes
the controller into the Express default error handler, which answers 500;
only when the parent objects are present does an absent leaf field degrade
to placeholder text in the message, and that text is "undefined", not
"unavailable". -/
theorem absent_fields_amended :
    (∀ fields, lookupField fields "sender" = none →
      GitHubService.onStar (.obj fields) = .error .typeError) ∧
    (∀ fields sf, lookupField fields "sender" = some (.obj sf) →
      lookupField fields "repository" = none →
      GitHubService.onStar (.obj fields) = .error .typeError) ∧
    (∀ fields sf rf, lookupField fields "sender" = some (.obj sf) →
      lookupField fields "repository" = some (.obj rf) →
      lookupField sf "login" = none →
      ∃ m, GitHubService.onStar (.obj fields) = .ok m ∧
        "undefined".data <:+: m.data) ∧
    (∀ fields, lookupField fields "action" = some (.str "opened") →
      lookupField fields "issue" = none →
      GitHubService.onIssue (.obj fields) = .error .typeError) ∧
    (∀ fields iFields, lookupField fields "action" = some (.str "opened") →
      lookupField fields "issue" = some (.obj iFields) →
      lookupField iFields "title" = none →
      GitHubService.onIssue (.obj fields) =
        .ok "An issue was opened with this title undefined") ∧
    (∀ (secret : String) (sigHeader eventHeader : Option String)
      (body : JsValue) (f : FetchResult) (e : JsError),
      GithubSha256Middleware.verifyGithubSignature secret sigHeader body = true →
      GitHubController.dispatchEvent
        (GitHubController.extractGithubEvent eventHeader) body = .error e →
      handleWebhookRequest secret sigHeader eventHeader body f =
        ⟨500, .str "Internal Server Error", true⟩) := by
  refine ⟨?_, ?_, ?_, ?_, ?_, ?_⟩
  · intro fields h
    simp only [GitHubService.onStar, getProp_obj, exBind_ok, h,
      Option.getD_none, JsValue.getProp, exBind_err]
  · intro fields sf hs hr
    simp only [GitHubService.onStar, getProp_obj, exBind_ok, hs, hr,
      Option.getD_none, Option.getD_some, JsValue.getProp, exBind_err]
  · intro fields sf rf hs hr hl
    simp only [GitHubService.onStar, getProp_obj, exBind_ok, hs, hr, hl,
      Option.getD_none, Option.getD_some, JsValue.getProp]
    refine ⟨_, rfl, ?_⟩
    refine ⟨"User ".data,
      (" " ++ ((lookupField fields "action").getD JsValue.undef).toTemplate
        ++ " star on "
        ++ ((lookupField rf "full_name").getD JsValue.undef).toTemplate).data, ?_⟩
    simp [String.data_append, JsValue.toTemplate]
  · intro fields ha hi
    simp only [GitHubService.onIssue, getProp_obj, exBind_ok, ha, hi,
      Option.getD_none, Option.getD_some, JsValue.strictEqStr, JsValue.getProp]
    rfl
  · intro fields iFields ha hi ht
    simp only [GitHubService.onIssue, getProp_obj, exBind_ok, ha, hi, ht,
      Option.getD_none, Option.getD_some, JsValue.strictEqStr, JsValue.getProp]
    rfl
  · intro secret sigHeader eventHeader body f e hv hd
    simp only [handleWebhookRequest, hv, if_true,
      GitHubController.webHookHandler, hd]

set_option maxRecDepth 100000 in
/-- Witness for claim C7 as amended, at concrete payloads: a star payload
with no sender throws; one with a sender object but no repository throws;
a star payload with empty sender and repository objects succeeds with the
placeholder text "undefined"; an opened issue payload with no issue object
throws; one with an empty issue object succeeds with the placeholder text;
and a verified star delivery whose payload has no sender ends in the
Express error handler with a 500 response. -/
theorem absent_fields_witness :
    GitHubService.onStar (.obj [("action", .str "x")]) = .error .typeError ∧
    GitHubService.onStar (.obj [("sender", .obj [])]) = .error .typeError ∧
    (∃ m, GitHubService.onStar
        (.obj [("sender", .obj []), ("repository", .obj [])]) = .ok m ∧
      "undefined".data <:+: m.data) ∧
    GitHubService.onIssue (.obj [("action", .str "opened")]) =
      .error .typeError ∧
    GitHubService.onIssue (.obj [("action", .str "opened"), ("issue", .obj [])]) =
      .ok "An issue was opened with this title undefined" ∧
    handleWebhookRequest "s"
      (some "sha256=143ca8d517ba1b181025d732b1cf275d90104fca57bb02a565542978aa18c4b6")
      (some "star") (.obj []) (.response true) =
      ⟨500, .str "Internal Server Error", true⟩ :=
  ⟨absent_fields_amended.1 _ rfl,
   absent_fields_amended.2.1 _ [] rfl rfl,
   absent_fields_amended.2.2.1 _ [] [] rfl rfl rfl,
   absent_fields_amended.2.2.2.1 _ rfl rfl,
   absent_fields_amended.2.2.2.2.1 _ [] rfl rfl rfl,
   absent_fields_amended.2.2.2.2.2 "s" _ _ _ _ .typeError rfl rfl⟩

set_option maxRecDepth 100000 in
/-- Claim C1 is a code bug: for a delivery that passes signature
verification (concrete secret "s", a correct signature header over the
serialized body, an empty object body), the pipeline answers 202 for every
notifier outcome — also for the network-error outcome the specification
classifies as failed and requires to produce 500. The promise returned by
`DiscordService.notify` always resolves (the catch branch answering 500 in
the controller is unreachable). -/
theorem notify_failure_still_yields_202 :
    GithubSha256Middleware.verifyGithubSignature "s"
      (some "sha256=143ca8d517ba1b181025d732b1cf275d90104fca57bb02a565542978aa18c4b6")
      (.obj []) = true ∧
    (∀ f : FetchResult,
      (handleWebhookRequest "s"
        (some "sha256=143ca8d517ba1b181025d732b1cf275d90104fca57bb02a565542978aa18c4b6")
        none (.obj []) f).status = 202) ∧
    specNotifyFailed .networkError = true ∧
    DiscordService.notify .networkError = .resolved false := by
  refine ⟨rfl, ?_, rfl, rfl⟩
  intro f
  cases f with
  | response ok => cases ok <;> rfl
  | networkError => rfl

/-- Claim C2 is a code bug: the string whose bytes the middleware MACs is
`JSON.stringify(req.body)`, a re-serialization, and for the raw body text
with a space after the colon the re-serialized form differs from the raw
text, so the MACed byte sequence is not the byte sequence the sender
signed. -/
theorem mac_input_not_raw_body :
    jsonParse "\x7b\"a\": \"b\"\x7d" = some (.obj [("a", .str "b")]) ∧
    GithubSha256Middleware.macInput (.obj [("a", .str "b")]) =
      "\x7b\"a\":\"b\"\x7d" ∧
    ("\x7b\"a\":\"b\"\x7d" : String) ≠ "\x7b\"a\": \"b\"\x7d" := by
  exact ⟨rfl, rfl, by decide⟩

/-- Every value of `hexDigitChar` is one of the sixteen digit characters
(out-of-range indices give the list default, itself such a character). -/
theorem hexDigitChar_mem (n : Nat) : hexDigitChar n ∈ "0123456789abcdef".data := by
  unfold hexDigitChar
  rcases Nat.lt_or_ge n 16 with h | h
  · revert h; revert n; decide
  · rw [List.getD_eq_default]
    · decide
    · simpa using h

/-- The hexadecimal digit characters never collide with the header
separator. -/
theorem hexDigitChar_ne_sep (n : Nat) : hexDigitChar n ≠ '=' := by
  intro h
  have hm := hexDigitChar_mem n
  rw [h] at hm
  revert hm; decide

/-- A hexadecimal encoding contains no separator character. -/
theorem bytesToHex_no_sep (bs : List Nat) : '=' ∉ bytesToHex bs := by
  induction bs with
  | nil => simp [bytesToHex]
  | cons b rest ih =>
    simp [bytesToHex, ih, hexDigitChar_ne_sep]
    exact ⟨(hexDigitChar_ne_sep _).symm, (hexDigitChar_ne_sep _).symm⟩

/-- Hexadecimal encoding yields two characters per byte. -/
theorem bytesToHex_length (bs : List Nat) :
    (bytesToHex bs).length = 2 * bs.length := by
  induction bs with
  | nil => rfl
  | cons b rest ih => simp [bytesToHex, ih]; omega

/-- Splitting a piece free of the separator yields that one piece appended
to the accumulated characters. -/
theorem jsSplitAux_no_sep (sep : Char) (l acc : List Char) (h : sep ∉ l) :
    jsSplitAux sep l acc = [acc.reverse ++ l] := by
  induction l generalizing acc with
  | nil => simp [jsSplitAux]
  | cons c rest ih =>
    have hc : ¬(c = sep) := fun hc => h (by simp [hc])
    have hr : sep ∉ rest := fun hr => h (List.mem_cons_of_mem _ hr)
    simp [jsSplitAux, hc, ih _ hr]

/-- A string free of the separator splits into exactly itself. -/
theorem jsSplit_no_sep (sep : Char) (l : List Char) (h : sep ∉ l) :
    jsSplit sep l = [l] := by
  simpa [jsSplit] using jsSplitAux_no_sep sep l [] h

/-- A well-formed header splits into the algorithm tag and the digest,
provided the digest contains no separator. -/
theorem jsSplit_tag (hx : List Char) (h : '=' ∉ hx) :
    jsSplit '=' ("sha256=".data ++ hx) = ["sha256".data, hx] := by
  have hd : "sha256=".data = ['s', 'h', 'a', '2', '5', '6', '='] := rfl
  rw [hd]
  show jsSplitAux '=' _ [] = _
  simp [jsSplitAux, jsSplitAux_no_sep '=' hx _ h]

/-- A two-digit hexadecimal pair parses to its value under the parseInt
model. -/
theorem parseIntHex_pair : ∀ hi : Nat, hi < 16 → ∀ lo : Nat, lo < 16 →
    parseIntHex [hexDigitChar hi, hexDigitChar lo] =
      some ((16 * hi + lo : Nat) : Int) := by decide

/-- Storing a parsed byte value below 256 into the array returns it
unchanged. -/
theorem toUint8_byte (b : Nat) (h : b < 256) :
    toUint8 (some ((b : Nat) : Int)) = b := by
  show (((b : Nat) : Int) % 256).toNat = b
  rw [Int.emod_eq_of_lt (by omega) (by exact_mod_cast h)]
  simp

/-- Decoding the hexadecimal encoding of a byte string recovers the
bytes. -/
theorem decodePairs_bytesToHex (bs : List Nat) (h : ∀ b ∈ bs, b < 256) :
    decodePairs (bytesToHex bs) = bs := by
  induction bs with
  | nil => rfl
  | cons b rest ih =>
    have hb : b < 256 := h b (by simp)
    have hrest : ∀ x ∈ rest, x < 256 := fun x hx => h x (by simp [hx])
    show decodePairs (hexDigitChar (b / 16) :: hexDigitChar (b % 16)
      :: bytesToHex rest) = _
    unfold decodePairs
    rw [parseIntHex_pair (b / 16) (by omega) (b % 16) (by omega)]
    rw [Nat.div_add_mod b 16]
    rw [toUint8_byte b hb, ih hrest]

/-- The decoded byte count is the truncated half of the character count
(a trailing odd character contributes nothing). -/
theorem decodePairs_length (l : List Char) :
    (decodePairs l).length = l.length / 2 := by
  induction l using decodePairs.induct with
  | case1 c1 c2 rest ih => simp [decodePairs, ih]; omega
  | case2 c => simp [decodePairs]
  | case3 => rfl

/-- Every byte of a word serialization is below 256. -/
theorem mem_wordBytes_lt (b x : Nat) (h : b ∈ wordBytes x) : b < 256 := by
  simp [wordBytes] at h
  rcases h with h | h | h | h <;> omega

/-- Every byte of a digest is below 256. -/
theorem mem_digest_lt (st : Hash8) (b : Nat) (h : b ∈ st.digest) : b < 256 := by
  simp only [Hash8.digest, List.mem_append] at h
  rcases h with ((((((h | h) | h) | h) | h) | h) | h) | h <;>
    exact mem_wordBytes_lt b _ h

/-- Every byte of an HMAC value is below 256. -/
theorem hmac_lt (key msg : List Nat) : ∀ b ∈ hmacSha256 key msg, b < 256 := by
  unfold hmacSha256
  exact fun b hb => mem_digest_lt _ b hb

/-- The UTF-8 encoding of a character is never empty. -/
theorem utf8Bytes_ne_nil (c : Char) : utf8Bytes c ≠ [] := by
  simp only [utf8Bytes]
  split
  · simp
  · split
    · simp
    · split <;> simp

/-- The UTF-8 encoding of a nonempty string is nonempty. -/
theorem encodeUtf8_ne_nil (s : String) (h : s ≠ "") : encodeUtf8 s ≠ [] := by
  obtain ⟨l⟩ := s
  cases l with
  | nil => exact absurd rfl h
  | cons c cs =>
    show (utf8Bytes c ++ (cs.map utf8Bytes).flatten) ≠ []
    simp [utf8Bytes_ne_nil c]

set_option maxRecDepth 100000 in
/-- Counterexample to claim C3 as stated: for the empty secret, the header
built exactly as the claim prescribes (the literal tag followed by the
hexadecimal HMAC of the body under that secret) is still rejected, because
the WebCrypto key import throws a DataError for a zero-length HMAC key and
the catch turns that into a negative verdict. -/
theorem empty_secret_correct_header_rejected :
    String.mk (bytesToHex (hmacSha256 (encodeUtf8 "") (encodeUtf8 ""))) =
      "b613679a0814d9ec772f95d778c35fc5ff1697c493715653c6c712144292c5ad" ∧
    GithubSha256Middleware.verifySignature ""
      ("sha256=" ++ "b613679a0814d9ec772f95d778c35fc5ff1697c493715653c6c712144292c5ad")
      "" = false :=
  ⟨rfl, rfl⟩

/-- Claim C3 as amended: for every secret with at least one byte and every
body, verifying with the correctly constructed header — the literal tag
"sha256=" followed by the lowercase hexadecimal HMAC-SHA256 of the body
under the secret — returns true. -/
theorem correct_header_verifies (secret body : String) (h : secret ≠ "") :
    GithubSha256Middleware.verifySignature secret
      ("sha256=" ++ String.mk (bytesToHex
        (hmacSha256 (encodeUtf8 secret) (encodeUtf8 body)))) body = true := by
  have hkey : ¬((encodeUtf8 secret).length = 0) := by
    simpa [List.length_eq_zero] using encodeUtf8_ne_nil secret h
  have hdata : ("sha256=" ++ String.mk (bytesToHex
      (hmacSha256 (encodeUtf8 secret) (encodeUtf8 body)))).data
      = "sha256=".data
        ++ bytesToHex (hmacSha256 (encodeUtf8 secret) (encodeUtf8 body)) := by
    rw [String.data_append]
  simp only [GithubSha256Middleware.verifySignature,
    GithubSha256Middleware.verifySignatureSteps, hdata,
    jsSplit_tag _ (bytesToHex_no_sep _), List.getElem?_cons_succ,
    List.getElem?_cons_zero, if_neg hkey, GithubSha256Middleware.hexToBytes]
  rw [decodePairs_bytesToHex _ (hmac_lt _ _)]
  simp

/-- Witness for claim C3 as amended, at the concrete nonempty secret "s"
and body "5". -/
theorem correct_header_verifies_witness :
    ("s" : String) ≠ "" ∧
    GithubSha256Middleware.verifySignature "s"
      ("sha256=" ++ String.mk (bytesToHex
        (hmacSha256 (encodeUtf8 "s") (encodeUtf8 "5")))) "5" = true :=
  ⟨by decide, correct_header_verifies "s" "5" (by decide)⟩

set_option maxRecDepth 100000 in
/-- Counterexample to claim C4 as stated, in two shapes. A header whose
64-character digest contains the non-hexadecimal character z (at the
position of a zero byte of the expected HMAC) is accepted, because
`parseInt` turns the pair "zz" into NaN and the `Uint8Array` store coerces
NaN to the byte 0. A 65-character — wrong-length — digest whose first 64
characters are the correct hexadecimal digest is also accepted, because
`new Uint8Array(65 / 2)` truncates to 32 elements and the final
out-of-bounds store is silently ignored. -/
theorem malformed_digest_headers_accepted :
    hexDigitVal 'z' = none ∧
    'z' ∈ ("4c9a1e37aef7bf0d80b9b1b644a3621ec223zz5d12e0d721c0c1f1546c3d9333" : String).data ∧
    GithubSha256Middleware.verifySignature "s"
      ("sha256=" ++ "4c9a1e37aef7bf0d80b9b1b644a3621ec223zz5d12e0d721c0c1f1546c3d9333")
      "5" = true ∧
    ("4c9a1e37aef7bf0d80b9b1b644a3621ec223005d12e0d721c0c1f1546c3d9333f" : String).length = 65 ∧
    GithubSha256Middleware.verifySignature "s"
      ("sha256=" ++ "4c9a1e37aef7bf0d80b9b1b644a3621ec223005d12e0d721c0c1f1546c3d9333f")
      "5" = true :=
  ⟨rfl, by decide, rfl, rfl, rfl⟩

/-- Claim C4 as amended: verification returns a plain negative verdict — no
exception reaches the caller, every throw is converted to false by the
catch — for every header without the separator, and for every digest whose
truncated half-length differs from 32 (that is, fewer than 64 or at least
66 characters), since the decoded byte count then differs from the HMAC
length. A digest of 64 or 65 characters, however, is decoded from its first
64 characters through the parseInt coercions (NaN to 0,
longest-valid-prefix, the trailing 65th character dropped by the
out-of-bounds store) and is accepted whenever that decode coincides with
the expected HMAC, malformed or not. -/
theorem malformed_header_rejected :
    (∀ s p hdr : String, '=' ∉ hdr.data →
      GithubSha256Middleware.verifySignature s hdr p = false) ∧
    (∀ s p d : String, '=' ∉ d.data → d.data.length / 2 ≠ 32 →
      GithubSha256Middleware.verifySignature s ("sha256=" ++ d) p = false) := by
  refine ⟨?_, ?_⟩
  · intro s p hdr h
    simp only [GithubSha256Middleware.verifySignature,
      GithubSha256Middleware.verifySignatureSteps, jsSplit_no_sep '=' hdr.data h,
      List.getElem?_cons_succ, List.getElem?_nil]
    by_cases hk : (encodeUtf8 s).length = 0 <;>
      simp [hk, GithubSha256Middleware.hexToBytes]
  · intro s p d h hlen
    have hdata : ("sha256=" ++ d).data = "sha256=".data ++ d.data :=
      String.data_append _ _
    simp only [GithubSha256Middleware.verifySignature,
      GithubSha256Middleware.verifySignatureSteps, hdata, jsSplit_tag d.data h,
      List.getElem?_cons_succ, List.getElem?_cons_zero,
      GithubSha256Middleware.hexToBytes]
    by_cases hk : (encodeUtf8 s).length = 0
    · simp [hk]
    · rw [if_neg hk]
      show (decodePairs d.data
        == hmacSha256 (encodeUtf8 s) (encodeUtf8 p)) = false
      rw [beq_eq_false_iff_ne]
      intro heq
      have hlq := congrArg List.length heq
      rw [decodePairs_length] at hlq
      have h32 : (hmacSha256 (encodeUtf8 s) (encodeUtf8 p)).length = 32 := rfl
      rw [h32] at hlq
      exact hlen hlq

/-- Witness for claim C4 as amended: the always-rejected shapes at concrete
inputs — a header without separator, a three-character digest, a
two-character digest. -/
theorem malformed_header_rejected_witness :
    GithubSha256Middleware.verifySignature "s" "undefined" "x" = false ∧
    GithubSha256Middleware.verifySignature "s" ("sha256=" ++ "abc") "x" = false ∧
    GithubSha256Middleware.verifySignature "s" ("sha256=" ++ "ab") "x" = false :=
  ⟨malformed_header_rejected.1 "s" "x" "undefined" (by decide),
   malformed_header_rejected.2 "s" "x" "abc" (by decide) (by decide),
   malformed_header_rejected.2 "s" "x" "ab" (by decide) (by decide)⟩

end Webhooks
